import Mathlib

/-!
Verification of the 3C-analysis pipeline (researcher.py, pptx_builder.py,
models.py) via a shallow embedding in Lean 4.

Conventions of the embedding:
* Python strings are modelled either as Lean `String` or, where per-character
  slicing matters, as `List Char` (a Python `str` is a sequence of code
  points, which is exactly what both model).
* JSON values decoded by `json.loads` are modelled by the inductive `JValue`;
  `json.loads` itself is standard-library code (not part of this repository)
  and is passed in as a function `List Char → Option JValue`, `none`
  modelling a raised `JSONDecodeError`/`TypeError`.
* Fallible Python code (code that may raise) is embedded with `Except`;
  code that cannot raise is embedded as a total function.
* Floats only ever pass through this code unchanged (no float arithmetic is
  performed on them), so they are modelled by `ℚ`.
-/

namespace ThreeC

/-! ## Retry helper (`_call_api_with_retry`, researcher.py lines 16-40) -/

/-- Outcome of one attempt of the wrapped API call: it returns a value,
raises `anthropic.RateLimitError`, or raises some other exception. -/
inductive Outcome (α : Type) where
  | ok (a : α)
  | rateLimit
  | otherError (e : String)
deriving Repr, DecidableEq

/-- Result of `_call_api_with_retry`: a returned value, the terminal
rate-limit `Exception`, or a propagated (uncaught) exception.  Each carries
the number of attempts that were made. -/
inductive RetryResult (α : Type) where
  | success (a : α) (attemptsUsed : Nat)
  | rateLimitAbort (attemptsUsed : Nat)
  | propagated (e : String) (attemptsUsed : Nat)
deriving Repr, DecidableEq

/-- Number of attempts recorded in a `RetryResult`. -/
def RetryResult.attempts : RetryResult α → Nat
  | .success _ n => n
  | .rateLimitAbort n => n
  | .propagated _ n => n

/-- The loop body of `_call_api_with_retry`.  `f n` is the outcome of the
call on attempt index `n` (Python's `attempt`); `remaining` is
`max_retries - attempt`, so Python's guard `attempt < max_retries` is
`remaining ≠ 0`.  Returns the result together with the list of sleeps
performed (`time.sleep(wait_sec)` with `wait_sec = 30`). -/
def retryLoop (f : Nat → Outcome α) : Nat → Nat → RetryResult α × List Nat
  | remaining, attempt =>
    match f attempt with
    | Outcome.ok a => (RetryResult.success a (attempt + 1), [])
    | Outcome.otherError e => (RetryResult.propagated e (attempt + 1), [])
    | Outcome.rateLimit =>
      match remaining with
      | 0 => (RetryResult.rateLimitAbort (attempt + 1), [])
      | r + 1 =>
        let p := retryLoop f r (attempt + 1)
        (p.1, 30 :: p.2)

/-- `_call_api_with_retry(func)` with the default `max_retries=2` (the only
way it is invoked in the repository). -/
def callApiWithRetry (f : Nat → Outcome α) : RetryResult α × List Nat :=
  retryLoop f 2 0

/-! ## Stakeholder-perspective slide guard (`_slide_perspective`,
pptx_builder.py lines 674-679) -/

/-- models.py `PerspectiveView`. -/
structure PerspectiveView where
  needs : String := ""
  concerns : String := ""
  opportunities : String := ""
deriving Repr, DecidableEq

/-- models.py `PerspectiveAnalysis`. -/
structure PerspectiveAnalysis where
  executive : PerspectiveView := {}
  frontline : PerspectiveView := {}
  customer : PerspectiveView := {}
deriving Repr, DecidableEq

/-- Python truthiness of a `str`: the empty string is falsy. -/
def strTruthy (s : String) : Bool := !s.isEmpty

/-- The guard of `_slide_perspective`: the number of slides the function
appends to the deck (0 or 1).  Source:
`if not (perspective.executive.needs or perspective.frontline.needs or
perspective.customer.needs): return`. -/
def slidePerspectiveCount (p : PerspectiveAnalysis) : Nat :=
  if !(strTruthy p.executive.needs || strTruthy p.frontline.needs ||
      strTruthy p.customer.needs) then 0
  else 1

/-! ## Fixed-budget text truncation (pptx_builder.py) -/

/-- pptx_builder.py line 388 (`_slide_company`, info-box values):
`display_val = value[:200] + "..." if len(value) > 200 else value`.
Note the appended marker is the three-character ASCII `"..."`. -/
def companyDisplayVal (value : List Char) : List Char :=
  if value.length > 200 then value.take 200 ++ "...".data else value

/-- pptx_builder.py line 591 (`_slide_customer`, market-size value):
`market_text = customer.market_size[:200] + "…" if
len(customer.market_size) > 200 else customer.market_size`.
The appended marker is the single character U+2026. -/
def customerMarketText (s : List Char) : List Char :=
  if s.length > 200 then s.take 200 ++ "…".data else s

/-! ## Discussion-question pagination (`_slide_questions`,
pptx_builder.py lines 749-790) -/

/-- The paging loop of `_slide_questions`: starting from the full (already
capped) question list, repeatedly emit a chunk of `PER_SLIDE = 12` items
(`chunk = questions[start_idx:end_idx]`) until the list is exhausted. -/
def chunksOf12 : List String → List (List String)
  | [] => []
  | q :: rest => ((q :: rest).take 12) :: chunksOf12 ((q :: rest).drop 12)
termination_by l => l.length
decreasing_by
  simp only [List.length_drop, List.length_cons]
  omega

/-- `_slide_questions`: returns, for each emitted slide, the list of
questions rendered on it.  Source: `if not qa or not qa.questions: return`
then `questions = qa.questions[:30]` and the 12-per-slide paging loop. -/
def slideQuestions (questions : List String) : List (List String) :=
  if questions.isEmpty then [] else chunksOf12 (questions.take 30)

/-! ## Positioning-map label placement (`_get_offset`,
pptx_builder.py lines 158-174) -/

/-- The fixed candidate offset list of `_get_offset`:
`offsets = [(8, 8), (-8, 8), (8, -12), (-8, -12), (12, 0), (-12, 0)]`. -/
def labelOffsets : List (Int × Int) :=
  [(8, 8), (-8, 8), (8, -12), (-8, -12), (12, 0), (-12, 0)]

/-- The conflict test of `_get_offset`: the candidate position `(x, y)`
clashes with some already placed label.  Source:
`abs((px + ox / 10) - lx) < 0.8 and abs((py + oy / 10) - ly) < 0.6`
(the candidate position is passed in here already divided by 10). -/
def labelConflict (placed : List (ℚ × ℚ)) (x y : ℚ) : Bool :=
  placed.any (fun l => decide (|x - l.1| < 8 / 10 ∧ |y - l.2| < 6 / 10))

/-- The candidate loop of `_get_offset`: try each offset in order, return
the first whose position does not conflict (together with that position);
if all conflict, force the first offset `(8, 8)`. -/
def pickOffset (placed : List (ℚ × ℚ)) (px py : ℚ) :
    List (Int × Int) → (Int × Int) × (ℚ × ℚ)
  | [] => ((8, 8), (px + 8 / 10, py + 8 / 10))
  | (ox, oy) :: rest =>
    if labelConflict placed (px + (ox : ℚ) / 10) (py + (oy : ℚ) / 10) then
      pickOffset placed px py rest
    else ((ox, oy), (px + (ox : ℚ) / 10, py + (oy : ℚ) / 10))

/-- `_get_offset(px, py)`: returns the chosen offset and the updated
`placed_labels` list (the chosen position is appended). -/
def getOffset (placed : List (ℚ × ℚ)) (px py : ℚ) :
    (Int × Int) × List (ℚ × ℚ) :=
  let r := pickOffset placed px py labelOffsets
  (r.1, placed ++ [r.2])

/-- Successive `_get_offset` calls as performed by
`_create_positioning_map`: the analyzed company's point first, then each
competitor point in order, threading `placed_labels` through. -/
def placeLabels : List (ℚ × ℚ) → List (ℚ × ℚ) → List (Int × Int)
  | _, [] => []
  | placed, p :: rest =>
    let r := getOffset placed p.1 p.2
    r.1 :: placeLabels r.2 rest

/-- Label placement starting from the empty `placed_labels` list. -/
def placeAllLabels (pts : List (ℚ × ℚ)) : List (Int × Int) :=
  placeLabels [] pts

/-! ## JSON values

Values produced by `json.loads` (standard-library code, outside this
repository).  Floats are modelled by `ℚ` since the repository never does
arithmetic on them. -/

/-- A decoded JSON value. -/
inductive JValue where
  | jnull
  | jbool (b : Bool)
  | jnum (q : ℚ)
  | jstr (s : String)
  | jarr (elems : List JValue)
  | jobj (fields : List (String × JValue))

/-- Python truthiness (`if not data:`) of a decoded JSON value. -/
def pyTruthy : JValue → Bool
  | JValue.jnull => false
  | JValue.jbool b => b
  | JValue.jnum q => decide (q ≠ 0)
  | JValue.jstr s => !s.isEmpty
  | JValue.jarr l => !l.isEmpty
  | JValue.jobj l => !l.isEmpty

/-- `_safe_to_dict` restricted to decoded JSON values: a JSON object gives
its fields, anything else gives the empty mapping (a decoded non-object
JSON value is not a `dict` and has no `__dict__`). -/
def toDict : JValue → List (String × JValue)
  | JValue.jobj f => f
  | _ => []

/-- `d.get(key, default)` on a decoded JSON object (`json.loads` produces
objects with unique keys, so first-match lookup is exact). -/
def jGetD (fields : List (String × JValue)) (key : String) (dflt : JValue) :
    JValue :=
  match fields.find? (fun p => p.1 == key) with
  | some p => p.2
  | none => dflt

/-- `_safe_str` (researcher.py lines 49-55) on a decoded JSON value:
`None` becomes `""`, a `str` passes through, anything else goes through
`str(...)`.  The exact `str()` rendering of containers is abstracted by a
marker (no claim inspects that text and no text field receives a container
in any claim's input). -/
def safeStr : JValue → String
  | JValue.jnull => ""
  | JValue.jstr s => s
  | JValue.jbool b => if b then "True" else "False"
  | JValue.jnum q => toString q
  | JValue.jarr _ => "[list]"
  | JValue.jobj _ => "[dict]"

/-- The list guard used throughout the normalizers:
`if not isinstance(x, list): x = []`. -/
def asList : JValue → List JValue
  | JValue.jarr l => l
  | _ => []

/-! ## Python `float(...)` on decoded JSON values -/

/-- Value of a digit string (fails on a non-digit; the empty list gives 0
and is rejected by the callers where Python would reject it). -/
def digitsVal (l : List Char) : Option Nat :=
  l.foldl
    (fun acc c =>
      match acc with
      | none => none
      | some n => if c.isDigit then some (n * 10 + (c.toNat - 48)) else none)
    (some 0)

/-- Python `str.strip()` on a character list (leading and trailing
whitespace removed). -/
def stripChars (l : List Char) : List Char :=
  ((l.dropWhile Char.isWhitespace).reverse.dropWhile Char.isWhitespace).reverse

/-- Unsigned decimal literal accepted by Python's `float`: `digits`,
`digits.digits`, `digits.` or `.digits`. -/
def parseUnsignedDecimal (l : List Char) : Option ℚ :=
  let intPart := l.takeWhile (fun c => c ≠ '.')
  let rest := l.dropWhile (fun c => c ≠ '.')
  match rest with
  | [] =>
    if intPart.isEmpty then none
    else (digitsVal intPart).map (fun n => (n : ℚ))
  | _ :: frac =>
    if frac.contains '.' then none
    else if intPart.isEmpty && frac.isEmpty then none
    else
      match digitsVal intPart, digitsVal frac with
      | some i, some f => some ((i : ℚ) + (f : ℚ) / (10 : ℚ) ^ frac.length)
      | _, _ => none

/-- Python `float(s)` for a string `s`: strip, optional sign, decimal
literal.  (The exotic forms — exponents, `inf`, `nan`, underscores — are
omitted; they never make a parse that should fail succeed, and no claim
exercises them.) -/
def parseDecimal (s : String) : Option ℚ :=
  let t := stripChars s.data
  match t with
  | [] => none
  | c :: rest =>
    if c = '-' then (parseUnsignedDecimal rest).map (fun q => -q)
    else if c = '+' then parseUnsignedDecimal rest
    else parseUnsignedDecimal t

/-- Python `float(v)` on a decoded JSON value; `none` models a raised
`ValueError`/`TypeError` (caught by the callers).  `bool` is an `int`
subclass in Python, so `float(True) = 1.0`. -/
def pyFloat : JValue → Option ℚ
  | JValue.jnum q => some q
  | JValue.jbool b => some (if b then 1 else 0)
  | JValue.jstr s => parseDecimal s
  | _ => none

/-! ## Competitor coercion (`_make_competitor`, researcher.py
lines 268-287) -/

/-- models.py `Competitor`. -/
structure Competitor where
  name : String
  description : String := ""
  strengths : String := ""
  weaknesses : String := ""
  differentiation : String := ""
  position_x : ℚ := 5
  position_y : ℚ := 5
deriving Repr, DecidableEq

/-- The coordinate coercion of `_make_competitor`:
`try: pos = float(d.get(key, 5)) except (ValueError, TypeError): pos = 5.0`. -/
def coercePos (d : List (String × JValue)) (key : String) : ℚ :=
  match pyFloat (jGetD d key (JValue.jnum 5)) with
  | some q => q
  | none => 5

/-- `_make_competitor(c)`. -/
def makeCompetitor (c : JValue) : Competitor :=
  let d := toDict c
  { name := safeStr (jGetD d "name" (JValue.jstr ""))
    description := safeStr (jGetD d "description" (JValue.jstr ""))
    strengths := safeStr (jGetD d "strengths" (JValue.jstr ""))
    weaknesses := safeStr (jGetD d "weaknesses" (JValue.jstr ""))
    differentiation := safeStr (jGetD d "differentiation" (JValue.jstr ""))
    position_x := coercePos d "position_x"
    position_y := coercePos d "position_y" }

/-! ## Source extraction and deduplication
(`_extract_text_and_sources`, researcher.py lines 89-161, and
`run_full_research`, lines 505-556) -/

/-- One entry of the `sources` list built by `_extract_text_and_sources`
(a dict `{"url": ..., "title": ...}`; both values have already gone
through `_safe_get_str`, so they are strings). -/
structure SourceEntry where
  url : String
  title : String
deriving Repr, DecidableEq

/-- A citation attached to a text block (url/title after
`_safe_get_str`). -/
structure Citation where
  url : String
  title : String
deriving Repr, DecidableEq

/-- One item of a `web_search_tool_result` block's content list. -/
structure WSItem where
  itemType : String
  url : String
  title : String
deriving Repr, DecidableEq

/-- A content block of an API response, as discriminated by
`_safe_get_type` in `_extract_text_and_sources`. -/
inductive Block where
  | text (body : String) (citations : List Citation)
  | webSearchToolResult (content : List WSItem)
  | serverToolUse
  | other (blockType : String)
deriving Repr, DecidableEq

/-- Sources contributed by the citations of a text block: each citation
with a non-empty url. -/
def citationSources (cs : List Citation) : List SourceEntry :=
  cs.filterMap (fun c => if c.url = "" then none else some ⟨c.url, c.title⟩)

/-- Sources contributed by a `web_search_tool_result` block: error items
are skipped, then each item with a non-empty url is kept. -/
def wsSources (items : List WSItem) : List SourceEntry :=
  items.filterMap (fun it =>
    if it.itemType = "web_search_tool_result_error" then none
    else if it.url = "" then none
    else some ⟨it.url, it.title⟩)

/-- Sources contributed by one block of the response. -/
def blockSources : Block → List SourceEntry
  | Block.text _ cs => citationSources cs
  | Block.webSearchToolResult items => wsSources items
  | _ => []

/-- The `sources` list accumulated over all blocks of one response. -/
def collectSources (blocks : List Block) : List SourceEntry :=
  (blocks.map blockSources).flatten

/-- The deduplication loop at the end of `_extract_text_and_sources`
(lines 152-158): `seen` models the `seen_urls` set. -/
def dedupSourcesAux (seen : List String) : List SourceEntry → List SourceEntry
  | [] => []
  | s :: rest =>
    if s.url ∈ seen then dedupSourcesAux seen rest
    else s :: dedupSourcesAux (s.url :: seen) rest

/-- Deduplication starting from an empty `seen_urls` set. -/
def dedupSources (l : List SourceEntry) : List SourceEntry :=
  dedupSourcesAux [] l

/-- The source list returned by `_extract_text_and_sources` for one
response: collected then deduplicated (within this one response). -/
def extractSources (blocks : List Block) : List SourceEntry :=
  dedupSources (collectSources blocks)

/-- models.py `SourceInfo`. -/
structure SourceInfo where
  url : String
  title : String := ""
  accessed_at : String := ""
deriving Repr, DecidableEq

/-- The `sources` field of the `ResearchResult` built by
`run_full_research`: `all_sources` is extended with each phase's (already
per-phase-deduplicated) sources in phase order — company, competitor,
customer — and then mapped to `SourceInfo` with no further
deduplication. -/
def runFullResearchSources
    (companyBlocks competitorBlocks customerBlocks : List Block) :
    List SourceInfo :=
  let allSources :=
    extractSources companyBlocks ++ extractSources competitorBlocks ++
      extractSources customerBlocks
  allSources.map (fun s => { url := s.url, title := s.title })

/-! ## JSON-block extraction (`_parse_json_from_text`, researcher.py
lines 187-229) -/

/-- First index at which `pat` occurs as a contiguous sublist
(Python `text.index(pat)` / the `in` containment test). -/
def findSub (pat : List Char) : List Char → Option Nat
  | [] => if pat.isEmpty then some 0 else none
  | c :: rest =>
    if pat.isPrefixOf (c :: rest) then some 0
    else (findSub pat rest).map (· + 1)

/-- Python `text.index(pat, start)`: first occurrence at index ≥ start. -/
def findSubFrom (pat : List Char) (start : Nat) (l : List Char) :
    Option Nat :=
  (findSub pat (l.drop start)).map (· + start)

/-- Python `text.rfind(c)` for a single character: last occurrence. -/
def rfindChar (c : Char) (l : List Char) : Option Nat :=
  (findSub [c] l.reverse).map (fun i => l.length - 1 - i)

/-- Python slice `text[a:b]`. -/
def sliceList (l : List Char) (a b : Nat) : List Char :=
  (l.drop a).take (b - a)

/-- The backtick character (written by code point to keep the source free
of raw backticks). -/
def btChar : Char := Char.ofNat 96

/-- The three-backtick fence searched for by `_parse_json_from_text`. -/
def fence3 : List Char := [btChar, btChar, btChar]

/-- The tagged fence (three backticks followed by `json`, 7 characters). -/
def fenceJson : List Char := fence3 ++ "json".data

/-- Opening and closing brace characters (written by code point to keep
string literals free of braces). -/
def lbraceChar : Char := Char.ofNat 123

/-- The closing brace character. -/
def rbraceChar : Char := Char.ofNat 125

/-- The extraction part of `_parse_json_from_text` for a `str` input:
`some js` is the `json_str` the function goes on to parse (`some []` when
a `ValueError` from an unterminated fence was caught), `none` is the early
`return {}` when no brace-delimited region exists. -/
def extractJsonStr (text : List Char) : Option (List Char) :=
  match findSub fenceJson text with
  | some i =>
    let start := i + 7
    match findSubFrom fence3 start text with
    | some e => some (stripChars (sliceList text start e))
    | none => some []
  | none =>
    match findSub fence3 text with
    | some i =>
      let start := i + 3
      match findSubFrom fence3 start text with
      | some e => some (stripChars (sliceList text start e))
      | none => some []
    | none =>
      match findSub [lbraceChar] text, rfindChar rbraceChar text with
      | some bs, some be =>
        if bs < be then some (sliceList text bs (be + 1)) else none
      | _, _ => none

/-- `_parse_json_from_text(text)` for a `str` input.  `loads` is
`json.loads` (standard-library code; `none` models a raised
`JSONDecodeError`/`TypeError`, which the function catches).  Note that a
successful parse is returned unchecked, whatever JSON value it is. -/
def parseJsonFromText (loads : List Char → Option JValue)
    (text : List Char) : JValue :=
  match extractJsonStr text with
  | none => JValue.jobj []
  | some jsonStr =>
    if jsonStr.isEmpty then JValue.jobj []
    else
      match loads jsonStr with
      | some v => v
      | none => JValue.jobj []

/-! ## Company-phase normalization (`research_company`, researcher.py
lines 303-355) -/

/-- models.py `TimelineEvent`. -/
structure TimelineEvent where
  year : String
  description : String
deriving Repr, DecidableEq

/-- models.py `NewsItem`. -/
structure NewsItem where
  title : String
  date : String
  summary : String
  url : String := ""
deriving Repr, DecidableEq

/-- models.py `SNSInfo`. -/
structure SNSInfo where
  platform : String
  summary : String
  tone : String
  key_topics : List String := []
deriving Repr, DecidableEq

/-- models.py `CompanyInfo`. -/
structure CompanyInfo where
  name : String := ""
  official_url : String := ""
  mission_vision : String := ""
  business_overview : String := ""
  products_services : String := ""
  timeline : List TimelineEvent := []
  recent_news : List NewsItem := []
  ir_summary : String := ""
  sns_analysis : List SNSInfo := []
  brand_momentum : String := ""
deriving Repr, DecidableEq

/-- `_make_timeline_event(e)`. -/
def makeTimelineEvent (e : JValue) : TimelineEvent :=
  let d := toDict e
  { year := safeStr (jGetD d "year" (JValue.jstr ""))
    description := safeStr (jGetD d "description" (JValue.jstr "")) }

/-- `_make_news_item(n)`. -/
def makeNewsItem (n : JValue) : NewsItem :=
  let d := toDict n
  { title := safeStr (jGetD d "title" (JValue.jstr ""))
    date := safeStr (jGetD d "date" (JValue.jstr ""))
    summary := safeStr (jGetD d "summary" (JValue.jstr ""))
    url := safeStr (jGetD d "url" (JValue.jstr "")) }

/-- `_make_sns_info(s)`: a non-list `key_topics` is wrapped as
`[_safe_str(key_topics)]` before the element-wise `_safe_str`. -/
def makeSNSInfo (s : JValue) : SNSInfo :=
  let d := toDict s
  let keyTopics :=
    match jGetD d "key_topics" (JValue.jarr []) with
    | JValue.jarr l => l
    | other => [JValue.jstr (safeStr other)]
  { platform := safeStr (jGetD d "platform" (JValue.jstr ""))
    summary := safeStr (jGetD d "summary" (JValue.jstr ""))
    tone := safeStr (jGetD d "tone" (JValue.jstr ""))
    key_topics := keyTopics.map safeStr }

/-- The normalization tail of `research_company` (everything after the API
call), applied to the raw text `text` of the response.  The `Except.error`
case is the uncaught `AttributeError` raised by `data.get(...)` when
`_parse_json_from_text` hands back a truthy JSON value that is not an
object (its `-> dict` annotation notwithstanding). -/
def researchCompany (loads : List Char → Option JValue)
    (companyName : String) (text : List Char) : Except String CompanyInfo :=
  let data := parseJsonFromText loads text
  if !pyTruthy data then
    Except.ok { name := companyName }
  else
    match data with
    | JValue.jobj fields =>
      let timelineRaw := asList (jGetD fields "timeline" (JValue.jarr []))
      let newsRaw := asList (jGetD fields "recent_news" (JValue.jarr []))
      let snsRaw := asList (jGetD fields "sns_analysis" (JValue.jarr []))
      Except.ok
        { name := safeStr (jGetD fields "name" (JValue.jstr companyName))
          official_url := safeStr (jGetD fields "official_url" (JValue.jstr ""))
          mission_vision := safeStr (jGetD fields "mission_vision" (JValue.jstr ""))
          business_overview := safeStr (jGetD fields "business_overview" (JValue.jstr ""))
          products_services := safeStr (jGetD fields "products_services" (JValue.jstr ""))
          timeline := timelineRaw.map makeTimelineEvent
          recent_news := newsRaw.map makeNewsItem
          ir_summary := safeStr (jGetD fields "ir_summary" (JValue.jstr ""))
          sns_analysis := snsRaw.map makeSNSInfo
          brand_momentum := safeStr (jGetD fields "brand_momentum" (JValue.jstr "")) }
    | _ => Except.error "AttributeError"

/-! ## Helper lemmas -/

/-- Python truthiness of a string is non-emptiness. -/
theorem strTruthy_iff (s : String) : strTruthy s = true ↔ s ≠ "" := by
  simp [strTruthy, Bool.eq_false_iff, String.isEmpty_iff]

/-- All sleeps performed by the retry loop last 30 time-units. -/
theorem retryLoop_waits (f : Nat → Outcome α) (remaining : Nat) :
    ∀ attempt, ∀ w ∈ (retryLoop f remaining attempt).2, w = 30 := by
  induction remaining with
  | zero =>
    intro attempt w hw
    rw [retryLoop] at hw
    cases hf : f attempt <;> simp [hf] at hw
  | succ r ih =>
    intro attempt w hw
    rw [retryLoop] at hw
    cases hf : f attempt <;> simp [hf] at hw
    rcases hw with hw | hw
    · exact hw
    · exact ih (attempt + 1) w hw

/-- The retry loop makes at most `remaining + 1` further attempts. -/
theorem retryLoop_attempts (f : Nat → Outcome α) (remaining : Nat) :
    ∀ attempt, (retryLoop f remaining attempt).1.attempts ≤
      attempt + remaining + 1 := by
  induction remaining with
  | zero =>
    intro attempt
    rw [retryLoop]
    cases hf : f attempt <;> simp [hf, RetryResult.attempts]
  | succ r ih =>
    intro attempt
    rw [retryLoop]
    have hr := ih (attempt + 1)
    simp only [RetryResult.attempts] at hr
    cases hf : f attempt <;> simp only [hf, RetryResult.attempts] <;> omega

/-! ## Claim theorems -/

/-- C6: every request wrapped by `_call_api_with_retry` (default budget
`max_retries = 2`): each rate-limit failure before the last allowed
attempt triggers a fixed 30-time-unit wait and a retry; at most 3 attempts
are ever made; 3 consecutive rate-limit failures end in the terminal
user-facing error after exactly 3 attempts with 2 waits and no fourth
attempt; a success on any attempt returns that attempt's value; and a
non-rate-limit failure is propagated immediately, never retried.  The
conjuncts enumerate every reachable behaviour, since the loop inspects at
most `f 0`, `f 1`, `f 2`. -/
theorem retryPolicy (f : Nat → Outcome Nat) :
    (∀ w ∈ (callApiWithRetry f).2, w = 30)
    ∧ (callApiWithRetry f).1.attempts ≤ 3
    ∧ (f 0 = Outcome.rateLimit → f 1 = Outcome.rateLimit →
        f 2 = Outcome.rateLimit →
        callApiWithRetry f = (RetryResult.rateLimitAbort 3, [30, 30]))
    ∧ (∀ a, f 0 = Outcome.ok a →
        callApiWithRetry f = (RetryResult.success a 1, []))
    ∧ (∀ a, f 0 = Outcome.rateLimit → f 1 = Outcome.ok a →
        callApiWithRetry f = (RetryResult.success a 2, [30]))
    ∧ (∀ a, f 0 = Outcome.rateLimit → f 1 = Outcome.rateLimit →
        f 2 = Outcome.ok a →
        callApiWithRetry f = (RetryResult.success a 3, [30, 30]))
    ∧ (∀ e, f 0 = Outcome.otherError e →
        callApiWithRetry f = (RetryResult.propagated e 1, []))
    ∧ (∀ e, f 0 = Outcome.rateLimit → f 1 = Outcome.otherError e →
        callApiWithRetry f = (RetryResult.propagated e 2, [30]))
    ∧ (∀ e, f 0 = Outcome.rateLimit → f 1 = Outcome.rateLimit →
        f 2 = Outcome.otherError e →
        callApiWithRetry f = (RetryResult.propagated e 3, [30, 30])) := by
  refine ⟨retryLoop_waits f 2 0, retryLoop_attempts f 2 0, ?_, ?_, ?_, ?_,
    ?_, ?_, ?_⟩
  · intro h0 h1 h2
    simp [callApiWithRetry, retryLoop, h0, h1, h2]
  · intro a h0
    simp [callApiWithRetry, retryLoop, h0]
  · intro a h0 h1
    simp [callApiWithRetry, retryLoop, h0, h1]
  · intro a h0 h1 h2
    simp [callApiWithRetry, retryLoop, h0, h1, h2]
  · intro e h0
    simp [callApiWithRetry, retryLoop, h0]
  · intro e h0 h1
    simp [callApiWithRetry, retryLoop, h0, h1]
  · intro e h0 h1 h2
    simp [callApiWithRetry, retryLoop, h0, h1, h2]

/-- Witness for C6: three consecutive rate-limit failures abort after
exactly 3 attempts with two 30-unit waits. -/
theorem retryPolicy_witness :
    callApiWithRetry (fun _ => Outcome.rateLimit (α := Nat)) =
      (RetryResult.rateLimitAbort 3, [30, 30]) :=
  (retryPolicy (fun _ => Outcome.rateLimit)).2.2.1 rfl rfl rfl

/-- C10: the stakeholder-perspective slide is generated iff at least one
of the three views has a non-empty `needs` field; a perspective whose
views carry only concerns/opportunities (all `needs` empty) produces no
slide. -/
theorem perspectiveSlideIff :
    (∀ p : PerspectiveAnalysis,
      slidePerspectiveCount p = 1 ↔
        (p.executive.needs ≠ "" ∨ p.frontline.needs ≠ "" ∨
          p.customer.needs ≠ ""))
    ∧ (∀ c1 c2 c3 o1 o2 o3 : String,
        slidePerspectiveCount
          ⟨⟨"", c1, o1⟩, ⟨"", c2, o2⟩, ⟨"", c3, o3⟩⟩ = 0) := by
  constructor
  · intro p
    by_cases he : p.executive.needs = "" <;>
      by_cases hf : p.frontline.needs = "" <;>
        by_cases hc : p.customer.needs = "" <;>
          simp [slidePerspectiveCount, strTruthy_iff, he, hf, hc,
            strTruthy, String.isEmpty_iff]
  · intro c1 c2 c3 o1 o2 o3
    rfl

/-- Witness for C10: a perspective with only concerns and opportunities
(empty `needs` everywhere) yields no slide, and one with a single
non-empty executive `needs` yields one slide. -/
theorem perspectiveSlideIff_witness :
    slidePerspectiveCount
        ⟨⟨"", "cost", "growth"⟩, ⟨"", "churn", "ops"⟩, ⟨"", "price", "ux"⟩⟩ = 0
    ∧ slidePerspectiveCount ⟨⟨"scale", "", ""⟩, {}, {}⟩ = 1 := by
  constructor
  · exact perspectiveSlideIff.2 "cost" "churn" "price" "growth" "ops" "ux"
  · exact (perspectiveSlideIff.1 ⟨⟨"scale", "", ""⟩, {}, {}⟩).mpr
      (Or.inl (by decide))

/-- C3 counterexample: a 250-character string routed through the
200-character-budget company business-overview field renders with length
203 (200 characters plus the three-character ASCII `"..."`), not the 201
the claim states. -/
theorem truncation201_cex :
    (companyDisplayVal (List.replicate 250 'a')).length = 203
    ∧ (companyDisplayVal (List.replicate 250 'a')).length ≠ 201 := by
  have h : (companyDisplayVal (List.replicate 250 'a')).length = 203 := by
    unfold companyDisplayVal
    rw [if_pos (by rw [List.length_replicate]; omega)]
    rw [List.length_append, List.length_take, List.length_replicate]
    rfl
  exact ⟨h, by omega⟩

/-- C3 (amended): a 250-character string through the customer market-size
field renders as the first 200 characters plus the one-character ellipsis
`…` (total 201); the same string through a company info-box field (e.g.
business overview) renders as the first 200 characters plus the
three-character ASCII `"..."` (total 203). -/
theorem truncationBudget200 (s : List Char) (h : s.length = 250) :
    customerMarketText s = s.take 200 ++ "…".data
    ∧ (customerMarketText s).length = 201
    ∧ companyDisplayVal s = s.take 200 ++ "...".data
    ∧ (companyDisplayVal s).length = 203 := by
  have h200 : s.length > 200 := by omega
  refine ⟨?_, ?_, ?_, ?_⟩ <;>
    simp [customerMarketText, companyDisplayVal, h200, h]

/-- Witness for C3 (amended) at a concrete 250-character string. -/
theorem truncationBudget200_witness :
    customerMarketText (List.replicate 250 'b') =
      (List.replicate 250 'b').take 200 ++ "…".data
    ∧ (customerMarketText (List.replicate 250 'b')).length = 201
    ∧ companyDisplayVal (List.replicate 250 'b') =
      (List.replicate 250 'b').take 200 ++ "...".data
    ∧ (companyDisplayVal (List.replicate 250 'b')).length = 203 :=
  truncationBudget200 (List.replicate 250 'b') (by rw [List.length_replicate])

/-- Chunking produces the empty slide list only from the empty question
list. -/
theorem chunksOf12_eq_nil_iff (l : List String) :
    chunksOf12 l = [] ↔ l = [] := by
  cases l with
  | nil => simp [chunksOf12]
  | cons q rest =>
    rw [chunksOf12]
    simp

/-- Chunking loses and reorders nothing: flattening the chunks restores
the input. -/
theorem chunksOf12_flatten (l : List String) : (chunksOf12 l).flatten = l := by
  induction l using chunksOf12.induct with
  | case1 => simp [chunksOf12]
  | case2 q rest ih =>
    rw [chunksOf12, List.flatten_cons, ih, List.take_append_drop]

/-- A non-empty list of `n` items yields `ceil(n/12)` chunks. -/
theorem chunksOf12_length (l : List String) (h : l ≠ []) :
    (chunksOf12 l).length = (l.length + 11) / 12 := by
  induction l using chunksOf12.induct with
  | case1 => exact absurd rfl h
  | case2 q rest ih =>
    rw [chunksOf12]
    by_cases h12 : rest.length + 1 ≤ 12
    · have hdrop : (q :: rest).drop 12 = [] := by
        apply List.drop_eq_nil_of_le
        simp only [List.length_cons]
        omega
      rw [hdrop]
      simp only [chunksOf12, List.length_cons, List.length_nil]
      omega
    · have hlen : ((q :: rest).drop 12).length = rest.length + 1 - 12 := by
        rw [List.length_drop, List.length_cons]
      have hne : (q :: rest).drop 12 ≠ [] := by
        intro he
        rw [he] at hlen
        simp at hlen
        omega
      rw [List.length_cons, ih hne, hlen, List.length_cons]
      omega

/-- Every chunk except the last holds exactly 12 items. -/
theorem chunksOf12_dropLast (l : List String) :
    ∀ c ∈ ((chunksOf12 l).map List.length).dropLast, c = 12 := by
  induction l using chunksOf12.induct with
  | case1 => simp [chunksOf12]
  | case2 q rest ih =>
    rw [chunksOf12]
    by_cases h12 : rest.length + 1 ≤ 12
    · have hdrop : (q :: rest).drop 12 = [] := by
        apply List.drop_eq_nil_of_le
        simp only [List.length_cons]
        omega
      rw [hdrop]
      simp [chunksOf12]
    · have hlen : ((q :: rest).drop 12).length = rest.length + 1 - 12 := by
        rw [List.length_drop, List.length_cons]
      have hne : chunksOf12 ((q :: rest).drop 12) ≠ [] := by
        rw [Ne, chunksOf12_eq_nil_iff]
        intro he
        rw [he] at hlen
        simp at hlen
        omega
      have htake : ((q :: rest).take 12).length = 12 := by
        rw [List.length_take]
        simp only [List.length_cons]
        omega
      intro c hc
      rw [List.map_cons, htake] at hc
      rw [List.dropLast_cons_of_ne_nil (by simpa using hne)] at hc
      rcases List.mem_cons.mp hc with hc | hc
      · exact hc
      · exact ih c hc

/-- The last chunk of a non-empty list of `n` items holds `n mod 12`
items (or 12 when `n` is a multiple of 12). -/
theorem chunksOf12_getLast (l : List String) (h : l ≠ []) :
    ((chunksOf12 l).map List.length).getLast? =
      some (if l.length % 12 = 0 then 12 else l.length % 12) := by
  induction l using chunksOf12.induct with
  | case1 => exact absurd rfl h
  | case2 q rest ih =>
    rw [chunksOf12]
    by_cases h12 : rest.length + 1 ≤ 12
    · have hdrop : (q :: rest).drop 12 = [] := by
        apply List.drop_eq_nil_of_le
        simp only [List.length_cons]
        omega
      have htake : (q :: rest).take 12 = q :: rest := by
        apply List.take_of_length_le
        simp only [List.length_cons]
        omega
      rw [hdrop, htake]
      simp only [chunksOf12, List.map_cons, List.map_nil, List.getLast?_singleton,
        List.length_cons]
      congr 1
      split_ifs with hz
      · omega
      · omega
    · have hlen : ((q :: rest).drop 12).length = rest.length + 1 - 12 := by
        rw [List.length_drop, List.length_cons]
      have hne : (q :: rest).drop 12 ≠ [] := by
        intro he
        rw [he] at hlen
        simp at hlen
        omega
      have hne2 : (chunksOf12 ((q :: rest).drop 12)).map List.length ≠ [] := by
        simpa [chunksOf12_eq_nil_iff] using hne
      rcases hx : (chunksOf12 ((q :: rest).drop 12)).map List.length with _ | ⟨y, ys⟩
      · exact absurd hx hne2
      · rw [List.map_cons, hx, List.getLast?_cons_cons, ← hx, ih hne, hlen,
          List.length_cons]
        congr 1
        split_ifs with h1 h2 h2 <;> omega

/-- C7: for a non-empty question list of `n ≤ 30` items (the rendered
range — `_slide_questions` caps at 30 first), the section paginates at 12
questions per slide: `ceil(n/12)` slides, every slide but the last holding
12 questions, the last holding `n mod 12` (or 12 when `n` is a multiple
of 12). -/
theorem questionsPagination (qs : List String) (hne : qs ≠ [])
    (hle : qs.length ≤ 30) :
    (slideQuestions qs).length = (qs.length + 11) / 12
    ∧ (∀ c ∈ ((slideQuestions qs).map List.length).dropLast, c = 12)
    ∧ ((slideQuestions qs).map List.length).getLast? =
        some (if qs.length % 12 = 0 then 12 else qs.length % 12) := by
  have hq : qs.isEmpty = false := by
    simpa [List.isEmpty_iff] using hne
  have htake : qs.take 30 = qs := List.take_of_length_le hle
  have hsq : slideQuestions qs = chunksOf12 qs := by
    rw [slideQuestions, hq]
    simp only [Bool.false_eq_true, if_false, htake]
  rw [hsq]
  exact ⟨chunksOf12_length qs hne, chunksOf12_dropLast qs,
    chunksOf12_getLast qs hne⟩

/-- Witness for C7: 25 questions produce exactly `ceil(25/12) = 3` slides,
every slide before the last holding 12 questions and the last holding
`25 mod 12 = 1`. -/
theorem questionsPagination_witness :
    (slideQuestions (List.replicate 25 "q")).length = 3
    ∧ (∀ c ∈ ((slideQuestions (List.replicate 25 "q")).map
        List.length).dropLast, c = 12)
    ∧ ((slideQuestions (List.replicate 25 "q")).map List.length).getLast? =
        some 1 := by
  have h := questionsPagination (List.replicate 25 "q")
    (by simp) (by rw [List.length_replicate]; omega)
  rw [List.length_replicate] at h
  refine ⟨?_, h.2.1, ?_⟩
  · rw [h.1]
  · rw [h.2.2]
    norm_num

/-- C9: `_slide_questions` truncates the question list to its first 30
items before paginating — the rendered slides contain exactly the first
30 questions (later ones are silently dropped) and there are never more
than 3 question slides. -/
theorem questionsCappedAt30 (qs : List String) :
    (slideQuestions qs).flatten = qs.take 30
    ∧ (slideQuestions qs).length ≤ 3 := by
  by_cases hq : qs.isEmpty
  · have : qs = [] := List.isEmpty_iff.mp hq
    subst this
    simp [slideQuestions]
  · have hq' : qs.isEmpty = false := by simpa using hq
    constructor
    · rw [slideQuestions, hq']
      simp only [Bool.false_eq_true, if_false]
      exact chunksOf12_flatten (qs.take 30)
    · rw [slideQuestions, hq']
      simp only [Bool.false_eq_true, if_false]
      have hne : qs.take 30 ≠ [] := by
        have : qs ≠ [] := by simpa [List.isEmpty_iff] using hq
        simp [List.take_eq_nil_iff, this]
      rw [chunksOf12_length (qs.take 30) hne, List.length_take]
      omega

/-- C4 counterexample: `_make_competitor` does not clamp coordinates — a
record carrying `position_x = 20` and `position_y = -3` produces a
`Competitor` whose coordinates lie outside `[0, 10]`. -/
theorem positionRange_cex :
    ¬ (0 ≤ (makeCompetitor (JValue.jobj
          [("position_x", JValue.jnum 20),
           ("position_y", JValue.jnum (-3))])).position_x
        ∧ (makeCompetitor (JValue.jobj
          [("position_x", JValue.jnum 20),
           ("position_y", JValue.jnum (-3))])).position_x ≤ 10
        ∧ 0 ≤ (makeCompetitor (JValue.jobj
          [("position_x", JValue.jnum 20),
           ("position_y", JValue.jnum (-3))])).position_y
        ∧ (makeCompetitor (JValue.jobj
          [("position_x", JValue.jnum 20),
           ("position_y", JValue.jnum (-3))])).position_y ≤ 10) := by
  intro h
  have hx : (makeCompetitor (JValue.jobj
      [("position_x", JValue.jnum 20),
       ("position_y", JValue.jnum (-3))])).position_x = 20 := rfl
  rw [hx] at h
  have := h.2.1
  norm_num at this

/-- C4 (amended): `_make_competitor` never clamps a coordinate — whenever
Python's `float(...)` parse of the field's value (default 5 when the field
is absent) succeeds with value `q`, the constructed coordinate equals `q`
unchanged, even when `q` lies outside `[0, 10]`; and whenever the field is
absent or the parse fails, the coordinate equals the default 5.0, which
lies in `[0, 10]`. -/
theorem positionNoClamp (c : JValue) :
    (∀ q : ℚ,
      pyFloat (jGetD (toDict c) "position_x" (JValue.jnum 5)) = some q →
      (makeCompetitor c).position_x = q)
    ∧ (((toDict c).find? (fun p => p.1 == "position_x") = none
        ∨ pyFloat (jGetD (toDict c) "position_x" (JValue.jnum 5)) = none) →
      (makeCompetitor c).position_x = 5
        ∧ 0 ≤ (makeCompetitor c).position_x
        ∧ (makeCompetitor c).position_x ≤ 10)
    ∧ (∀ q : ℚ,
      pyFloat (jGetD (toDict c) "position_y" (JValue.jnum 5)) = some q →
      (makeCompetitor c).position_y = q)
    ∧ (((toDict c).find? (fun p => p.1 == "position_y") = none
        ∨ pyFloat (jGetD (toDict c) "position_y" (JValue.jnum 5)) = none) →
      (makeCompetitor c).position_y = 5
        ∧ 0 ≤ (makeCompetitor c).position_y
        ∧ (makeCompetitor c).position_y ≤ 10) := by
  have hx : (makeCompetitor c).position_x = coercePos (toDict c) "position_x" :=
    rfl
  have hy : (makeCompetitor c).position_y = coercePos (toDict c) "position_y" :=
    rfl
  refine ⟨?_, ?_, ?_, ?_⟩
  · intro q h
    rw [hx]
    unfold coercePos
    rw [h]
  · intro h
    have h5 : (makeCompetitor c).position_x = 5 := by
      rw [hx]
      unfold coercePos
      rcases h with h | h
      · rw [jGetD, h]
        rfl
      · rw [h]
    rw [h5]
    norm_num
  · intro q h
    rw [hy]
    unfold coercePos
    rw [h]
  · intro h
    have h5 : (makeCompetitor c).position_y = 5 := by
      rw [hy]
      unfold coercePos
      rcases h with h | h
      · rw [jGetD, h]
        rfl
      · rw [h]
    rw [h5]
    norm_num

/-- Witness for C4 (amended): a record with `position_x = 20` (parseable,
out of range) and a non-numeric `position_y` yields the unclamped 20.0 and
the in-range default 5.0 respectively. -/
theorem positionNoClamp_witness :
    (makeCompetitor (JValue.jobj
        [("position_x", JValue.jnum 20),
         ("position_y", JValue.jstr "oops")])).position_x = 20
    ∧ (makeCompetitor (JValue.jobj
        [("position_x", JValue.jnum 20),
         ("position_y", JValue.jstr "oops")])).position_y = 5 := by
  have h := positionNoClamp (JValue.jobj
    [("position_x", JValue.jnum 20), ("position_y", JValue.jstr "oops")])
  exact ⟨h.1 20 (by decide), (h.2.2.2 (Or.inr (by decide))).1⟩

/-- C5: a position field that is absent, or whose value fails Python's
`float(...)` parse, coerces to exactly 5.0. -/
theorem positionDefault5 (c : JValue) :
    (((toDict c).find? (fun p => p.1 == "position_x") = none
        ∨ pyFloat (jGetD (toDict c) "position_x" (JValue.jnum 5)) = none) →
      (makeCompetitor c).position_x = 5)
    ∧ (((toDict c).find? (fun p => p.1 == "position_y") = none
        ∨ pyFloat (jGetD (toDict c) "position_y" (JValue.jnum 5)) = none) →
      (makeCompetitor c).position_y = 5) := by
  constructor
  · intro h
    have hx : (makeCompetitor c).position_x = coercePos (toDict c) "position_x" :=
      rfl
    rw [hx]
    unfold coercePos
    rcases h with h | h
    · rw [jGetD, h]
      rfl
    · rw [h]
  · intro h
    have hy : (makeCompetitor c).position_y = coercePos (toDict c) "position_y" :=
      rfl
    rw [hy]
    unfold coercePos
    rcases h with h | h
    · rw [jGetD, h]
      rfl
    · rw [h]

/-- Witness for C5: a record whose `position_x` is the non-numeric string
`"N/A"` and which lacks `position_y` altogether coerces both coordinates
to 5.0. -/
theorem positionDefault5_witness :
    (makeCompetitor (JValue.jobj
        [("position_x", JValue.jstr "N/A"),
         ("name", JValue.jstr "Beta")])).position_x = 5
    ∧ (makeCompetitor (JValue.jobj
        [("position_x", JValue.jstr "N/A"),
         ("name", JValue.jstr "Beta")])).position_y = 5 := by
  have h := positionDefault5 (JValue.jobj
    [("position_x", JValue.jstr "N/A"), ("name", JValue.jstr "Beta")])
  exact ⟨h.1 (Or.inr (by decide)), h.2 (Or.inl rfl)⟩

/-- Every entry of the deduplicated list comes from the input and has a
url outside `seen`. -/
theorem dedupSourcesAux_mem {seen : List String} {l : List SourceEntry}
    {s : SourceEntry} (h : s ∈ dedupSourcesAux seen l) :
    s ∈ l ∧ s.url ∉ seen := by
  induction l generalizing seen with
  | nil => simp [dedupSourcesAux] at h
  | cons a rest ih =>
    rw [dedupSourcesAux] at h
    by_cases ha : a.url ∈ seen
    · rw [if_pos ha] at h
      obtain ⟨h1, h2⟩ := ih h
      exact ⟨List.mem_cons_of_mem _ h1, h2⟩
    · rw [if_neg ha] at h
      rcases List.mem_cons.mp h with h | h
      · subst h
        exact ⟨List.mem_cons_self _ _, ha⟩
      · obtain ⟨h1, h2⟩ := ih h
        refine ⟨List.mem_cons_of_mem _ h1, fun hs => h2 ?_⟩
        exact List.mem_cons_of_mem _ hs

/-- The deduplicated list has pairwise distinct urls. -/
theorem dedupSourcesAux_nodup (seen : List String) (l : List SourceEntry) :
    ((dedupSourcesAux seen l).map SourceEntry.url).Nodup := by
  induction l generalizing seen with
  | nil => simp [dedupSourcesAux]
  | cons a rest ih =>
    rw [dedupSourcesAux]
    by_cases ha : a.url ∈ seen
    · rw [if_pos ha]
      exact ih seen
    · rw [if_neg ha]
      simp only [List.map_cons, List.nodup_cons]
      refine ⟨fun hmem => ?_, ih _⟩
      obtain ⟨t, ht, hturl⟩ := List.mem_map.mp hmem
      exact (dedupSourcesAux_mem ht).2 (by rw [hturl]; exact List.mem_cons_self _ _)

/-- Deduplication preserves the input order (the output is a sublist). -/
theorem dedupSourcesAux_sublist (seen : List String) (l : List SourceEntry) :
    (dedupSourcesAux seen l).Sublist l := by
  induction l generalizing seen with
  | nil => simp [dedupSourcesAux]
  | cons a rest ih =>
    rw [dedupSourcesAux]
    by_cases ha : a.url ∈ seen
    · rw [if_pos ha]
      exact (ih seen).cons a
    · rw [if_neg ha]
      exact (ih _).cons₂ a

/-- Deduplication keeps exactly the urls not yet seen. -/
theorem dedupSourcesAux_url_mem (seen : List String) (l : List SourceEntry)
    (u : String) :
    u ∈ (dedupSourcesAux seen l).map SourceEntry.url ↔
      (u ∉ seen ∧ u ∈ l.map SourceEntry.url) := by
  induction l generalizing seen with
  | nil => simp [dedupSourcesAux]
  | cons a rest ih =>
    rw [dedupSourcesAux]
    by_cases ha : a.url ∈ seen
    · rw [if_pos ha, ih]
      simp only [List.map_cons, List.mem_cons]
      constructor
      · rintro ⟨h1, h2⟩
        exact ⟨h1, Or.inr h2⟩
      · rintro ⟨h1, h2 | h2⟩
        · subst h2
          exact absurd ha h1
        · exact ⟨h1, h2⟩
    · rw [if_neg ha]
      simp only [List.map_cons, List.mem_cons, ih]
      constructor
      · rintro (h | ⟨h1, h2⟩)
        · subst h
          exact ⟨ha, Or.inl rfl⟩
        · exact ⟨fun hm => h1 (Or.inr hm), Or.inr h2⟩
      · rintro ⟨h1, h2 | h2⟩
        · exact Or.inl h2
        · by_cases hu : u = a.url
          · exact Or.inl hu
          · exact Or.inr ⟨by simp [List.mem_cons, hu, h1], h2⟩

/-- First occurrence wins: each kept entry is the first entry of the input
bearing its url. -/
theorem dedupSourcesAux_find (seen : List String) (l : List SourceEntry)
    (s : SourceEntry) (h : s ∈ dedupSourcesAux seen l) :
    l.find? (fun t => t.url == s.url) = some s := by
  induction l generalizing seen with
  | nil => simp [dedupSourcesAux] at h
  | cons a rest ih =>
    rw [dedupSourcesAux] at h
    by_cases ha : a.url ∈ seen
    · rw [if_pos ha] at h
      have hmem := dedupSourcesAux_mem h
      have hne : (a.url == s.url) = false := by
        simp only [beq_eq_false_iff_ne, ne_eq]
        intro he
        exact hmem.2 (he ▸ ha)
      rw [List.find?_cons]
      simp only [hne, Bool.false_eq_true, if_false]
      exact ih seen h
    · rw [if_neg ha] at h
      rcases List.mem_cons.mp h with h | h
      · subst h
        rw [List.find?_cons]
        simp
      · have hmem := dedupSourcesAux_mem h
        have hne : (a.url == s.url) = false := by
          simp only [beq_eq_false_iff_ne, ne_eq]
          intro he
          exact hmem.2 (he ▸ List.mem_cons_self _ _)
        rw [List.find?_cons]
        simp only [hne, Bool.false_eq_true, if_false]
        exact ih _ h

/-- C1 (amended): the final `ResearchResult.sources` list is the
concatenation, in phase order, of the three phases' individually
deduplicated source lists; within each phase the deduplication keeps
exactly one entry per distinct url — the first occurrence, in collection
order — but nothing deduplicates across phases, so a url returned by two
different phases appears once per phase. -/
theorem sourcesPerPhaseDedup (b1 b2 b3 : List Block) :
    runFullResearchSources b1 b2 b3 =
      (extractSources b1 ++ extractSources b2 ++ extractSources b3).map
        (fun s => { url := s.url, title := s.title, accessed_at := "" })
    ∧ (∀ blocks : List Block,
        ((extractSources blocks).map SourceEntry.url).Nodup
        ∧ (extractSources blocks).Sublist (collectSources blocks)
        ∧ (∀ u, u ∈ (extractSources blocks).map SourceEntry.url ↔
            u ∈ (collectSources blocks).map SourceEntry.url)
        ∧ (∀ s ∈ extractSources blocks,
            (collectSources blocks).find? (fun t => t.url == s.url) =
              some s)) := by
  refine ⟨rfl, fun blocks => ⟨?_, ?_, ?_, ?_⟩⟩
  · exact dedupSourcesAux_nodup [] (collectSources blocks)
  · exact dedupSourcesAux_sublist [] (collectSources blocks)
  · intro u
    rw [extractSources, dedupSources, dedupSourcesAux_url_mem]
    simp
  · intro s hs
    exact dedupSourcesAux_find [] (collectSources blocks) s hs

/-- Witness for C1 (amended): a phase whose response repeats a url keeps
only its first occurrence. -/
theorem sourcesPerPhaseDedup_witness :
    extractSources
        [Block.text "body"
          [⟨"https://x.example/", "first"⟩, ⟨"https://x.example/", "second"⟩,
           ⟨"https://y.example/", "other"⟩]] =
      [⟨"https://x.example/", "first"⟩, ⟨"https://y.example/", "other"⟩]
    ∧ (collectSources
        [Block.text "body"
          [⟨"https://x.example/", "first"⟩, ⟨"https://x.example/", "second"⟩,
           ⟨"https://y.example/", "other"⟩]]).find?
        (fun t => t.url == "https://x.example/") =
      some ⟨"https://x.example/", "first"⟩ := by
  constructor
  · rfl
  · have h := (sourcesPerPhaseDedup [] [] []).2
      [Block.text "body"
        [⟨"https://x.example/", "first"⟩, ⟨"https://x.example/", "second"⟩,
         ⟨"https://y.example/", "other"⟩]]
    exact h.2.2.2 ⟨"https://x.example/", "first"⟩ (by decide)

/-- C1 counterexample: the same url returned by the company phase and the
competitor phase appears twice in the final `ResearchResult.sources` — the
claimed run-wide deduplication does not happen. -/
theorem sourcesCrossPhaseDup_cex :
    ¬ (((runFullResearchSources
          [Block.text "t" [⟨"https://dup.example/", "A"⟩]]
          [Block.text "t" [⟨"https://dup.example/", "B"⟩]]
          []).map SourceInfo.url).Nodup) := by
  decide

/-- C8: `_get_offset` places labels greedily: each label takes the first
candidate of the fixed offset list `[(8,8), (-8,8), (8,-12), (-8,-12),
(12,0), (-12,0)]` whose position is not within the tolerance rectangle
(`|dx| < 0.8` and `|dy| < 0.6`) of any previously placed label, and is
forced to the first candidate `(8,8)` when every candidate conflicts.
Consequently, with the analyzed company's label placed first, two points
closer than the tolerance rectangle get offsets `(8,8)` then `(-8,8)`,
while two far-apart points both get the default `(8,8)`. -/
theorem labelPlacement :
    (∀ (placed : List (ℚ × ℚ)) (px py : ℚ),
      (∀ ox oy : Int, (ox, oy) ∈ labelOffsets →
        labelConflict placed (px + (ox : ℚ) / 10) (py + (oy : ℚ) / 10) = true) →
      (getOffset placed px py).1 = (8, 8))
    ∧ (∀ p q : ℚ × ℚ,
        |q.1 - p.1| < 8 / 10 → |q.2 - p.2| < 6 / 10 →
        placeAllLabels [p, q] = [(8, 8), (-8, 8)])
    ∧ (∀ p q : ℚ × ℚ,
        ¬(|q.1 - p.1| < 8 / 10 ∧ |q.2 - p.2| < 6 / 10) →
        placeAllLabels [p, q] = [(8, 8), (8, 8)]) := by
  refine ⟨?_, ?_, ?_⟩
  · intro placed px py hall
    have h1 := hall 8 8 (by simp [labelOffsets])
    have h2 := hall (-8) 8 (by simp [labelOffsets])
    have h3 := hall 8 (-12) (by simp [labelOffsets])
    have h4 := hall (-8) (-12) (by simp [labelOffsets])
    have h5 := hall 12 0 (by simp [labelOffsets])
    have h6 := hall (-12) 0 (by simp [labelOffsets])
    simp at h1 h2 h3 h4 h5 h6
    simp only [getOffset, pickOffset, labelOffsets]
    simp [h1, h2, h3, h4, h5, h6]
  · intro p q hx hy
    simp only [placeAllLabels, placeLabels, getOffset, pickOffset, labelOffsets,
      labelConflict, List.any_nil, List.any_cons, Bool.or_false,
      Bool.false_eq_true, if_false, List.nil_append]
    push_cast
    have e1 : q.1 + 8 / 10 - (p.1 + 8 / 10) = q.1 - p.1 := by ring
    have e2 : q.2 + 8 / 10 - (p.2 + 8 / 10) = q.2 - p.2 := by ring
    have e3 : q.1 + -8 / 10 - (p.1 + 8 / 10) = q.1 - p.1 - 16 / 10 := by ring
    rw [e1, e2, e3]
    have hc1 : decide (|q.1 - p.1| < 8 / 10 ∧ |q.2 - p.2| < 6 / 10) = true :=
      decide_eq_true ⟨hx, hy⟩
    have hc2 : decide (|q.1 - p.1 - 16 / 10| < 8 / 10 ∧ |q.2 - p.2| < 6 / 10) =
        false := by
      apply decide_eq_false
      rintro ⟨h1, _⟩
      rw [abs_lt] at h1 hx
      linarith [h1.1, hx.2]
    rw [hc1, hc2]
    simp
  · intro p q hfar
    simp only [placeAllLabels, placeLabels, getOffset, pickOffset, labelOffsets,
      labelConflict, List.any_nil, List.any_cons, Bool.or_false,
      Bool.false_eq_true, if_false, List.nil_append]
    push_cast
    have e1 : q.1 + 8 / 10 - (p.1 + 8 / 10) = q.1 - p.1 := by ring
    have e2 : q.2 + 8 / 10 - (p.2 + 8 / 10) = q.2 - p.2 := by ring
    rw [e1, e2]
    have hc1 : decide (|q.1 - p.1| < 8 / 10 ∧ |q.2 - p.2| < 6 / 10) = false :=
      decide_eq_false hfar
    rw [hc1]
    simp

/-- Witness for C8: coincident points `(5,5)` and `(5,5)` force the second
label to the second candidate `(-8,8)`, and a `placed_labels` state
occupying all six candidate positions around `(5,5)` forces `(8,8)`. -/
theorem labelPlacement_witness :
    placeAllLabels [((5 : ℚ), 5), (5, 5)] = [(8, 8), (-8, 8)]
    ∧ (getOffset
        [((29 : ℚ) / 5, 29 / 5), (21 / 5, 29 / 5), (29 / 5, 19 / 5),
         (21 / 5, 19 / 5), (31 / 5, 5), (19 / 5, 5)] 5 5).1 = (8, 8) := by
  constructor
  · exact labelPlacement.2.1 (5, 5) (5, 5) (by norm_num) (by norm_num)
  · refine labelPlacement.1 _ 5 5 ?_
    intro ox oy hmem
    fin_cases hmem <;> norm_num [labelConflict]

/-- C2: evaluation of the Company-phase normalization at the failing input
`"```json\n[1, 2]\n```"` (a fenced block holding a JSON array, which
Python's `json.loads` decodes to `[1, 2]`).  `_parse_json_from_text`
returns the array unchecked despite its `-> dict` annotation; the array is
truthy, so `research_company` reaches `data.get("timeline", [])` on a list
and raises `AttributeError` instead of returning a default record — the
normalization path does raise on this well-formed string input. -/
theorem researchCompanyRaisesOnArray :
    researchCompany
      (fun js =>
        if js = "[1, 2]".data
        then some (JValue.jarr [JValue.jnum 1, JValue.jnum 2]) else none)
      "Acme"
      (fenceJson ++ "\n[1, 2]\n".data ++ fence3) =
    Except.error "AttributeError" := by
  rfl

end ThreeC
